import Mathlib

/-!
Shallow embedding of the Azure "manage network interface" sample
(`example.go`, the sequential variant, and the concurrent/hardened variant)
in Lean 4.

Remote resources are modelled as records of optional fields (Go SDK structs
use pointer fields; `none` models a nil pointer, and an `Option`-valued
result of a function models a run that panics on a nil dereference).
Remote calls are modelled as an inductive `Call` type; functions that issue
calls return the list of calls they issue (their payloads), which is what the
spec's testable properties quantify over.
-/

namespace AzNet

/-- Constants from the Go source (`const` block). -/
def westUS : String := "westus"

def groupName : String := "your-azure-sample-group"

def vNetName : String := "vNet"

def nicNameFrontEnd : String := "nic1"

def nicNameMidTier : String := "nic2"

def nicNameBackEnd : String := "nic3"

def accountName : String := "golangrocksonazure"

def vmName : String := "vm"

/-- `network.Subnet`: only the fields the sample reads or writes. -/
structure Subnet where
  name : Option String
  id : Option String
  addressPrefix : Option String
deriving DecidableEq, Repr

/-- `network.PublicIPAddress`: only the fields the sample reads or writes. -/
structure PublicIPAddress where
  name : Option String
  dnsLabel : Option String
deriving DecidableEq, Repr

/-- `network.InterfaceIPConfiguration` (its properties flattened in). -/
structure IPConfiguration where
  name : Option String
  subnet : Option Subnet
  primary : Option Bool
  publicIPAddress : Option PublicIPAddress
  privateIPAddress : Option String
  privateIPAllocationMethod : String
deriving DecidableEq, Repr

/-- `network.Interface` (its properties flattened in). -/
structure Interface where
  name : Option String
  id : Option String
  location : Option String
  enableIPForwarding : Option Bool
  macAddress : Option String
  ipConfigurations : Option (List IPConfiguration)
deriving DecidableEq, Repr

/-- `compute.NetworkInterfaceReferenceProperties`. -/
structure NetworkInterfaceReferenceProperties where
  primary : Option Bool
deriving DecidableEq, Repr

/-- `compute.NetworkInterfaceReference`. -/
structure NetworkInterfaceReference where
  id : Option String
  properties : Option NetworkInterfaceReferenceProperties
deriving DecidableEq, Repr

/-! ## buildNIRs -/

/-- Body of the `buildNIRs` loop for one interface: a reference carrying the
interface's resource ID, whose properties mark it primary exactly when the
interface's name is the front-end constant (the guard
`nic.Name != nil && *nic.Name == nicNameFrontEnd` of the concurrent variant;
the sequential variant dereferences the name unconditionally and agrees
whenever the name is present). -/
def buildNIR (nic : Interface) : NetworkInterfaceReference :=
  if nic.name = some nicNameFrontEnd then
    { id := nic.id, properties := some { primary := some true } }
  else
    { id := nic.id, properties := some { primary := some false } }

/-- `buildNIRs`: the loop appends one reference per interface, in order. -/
def buildNIRs (nics : List Interface) : List NetworkInterfaceReference :=
  nics.map buildNIR

/-- Whether a built reference is flagged primary. -/
def nirIsPrimary (nir : NetworkInterfaceReference) : Bool :=
  nir.properties = some { primary := some true }

/-- Whether an interface is named by the front-end constant. -/
def isFrontEnd (nic : Interface) : Bool :=
  nic.name = some nicNameFrontEnd

/-! ## createSubnets -/

/-- The three subnet names of the sample, in creation order. -/
def subnetNames : List String := ["Front-end", "Mid-tier", "Back-end"]

/-- The address prefix assigned at loop index `i`:
`fmt.Sprintf("172.16.%v.0/24", i+1)`. -/
def subnetPrefix (i : Nat) : String :=
  "172.16." ++ toString (i + 1) ++ ".0/24"

/-- The `CreateOrUpdate` payloads issued by `createSubnets`, in order:
subnet name paired with the address prefix written into the reused
`subnet` struct before each call. -/
def createSubnetsCalls : List (String × String) :=
  subnetNames.enum.map (fun p => (p.2, subnetPrefix p.1))

/-! ## Theorems for claims C2 and C10 -/

/-- C2: `createSubnets` creates exactly three subnets; subnet `i` (0-indexed)
receives address prefix `172.16.(i+1).0/24`, with names Front-end, Mid-tier,
Back-end at indices 0, 1, 2, so the produced prefixes are `172.16.1.0/24`,
`172.16.2.0/24`, `172.16.3.0/24` in that order. -/
theorem createSubnets_three_prefixes :
    createSubnetsCalls =
      [("Front-end", "172.16.1.0/24"),
       ("Mid-tier", "172.16.2.0/24"),
       ("Back-end", "172.16.3.0/24")] ∧
    createSubnetsCalls.length = 3 ∧
    (∀ i : Fin createSubnetsCalls.length,
      (createSubnetsCalls.get i).2 = subnetPrefix i.val) := by
  refine ⟨rfl, rfl, ?_⟩
  intro i
  fin_cases i <;> rfl

/-- C10: `buildNIRs` returns a list of exactly the same length as its input,
in the same order, and the reference at position `i` carries the resource ID
of the interface at position `i`. -/
theorem buildNIRs_length_order_ids (nics : List Interface) :
    (buildNIRs nics).length = nics.length ∧
    (∀ i : Nat,
      ((buildNIRs nics).get? i).map NetworkInterfaceReference.id =
        (nics.get? i).map Interface.id) := by
  constructor
  · simp [buildNIRs]
  · intro i
    simp only [buildNIRs, List.get?_eq_getElem?, List.getElem?_map]
    cases hg : nics[i]? with
    | none => rfl
    | some nic =>
        simp only [Option.map_some']
        unfold buildNIR
        by_cases h : nic.name = some nicNameFrontEnd <;> simp [h]

/-- The primary flag of `buildNIR` mirrors the front-end name test. -/
theorem nirIsPrimary_buildNIR (nic : Interface) :
    nirIsPrimary (buildNIR nic) = isFrontEnd nic := by
  unfold nirIsPrimary buildNIR isFrontEnd
  by_cases h : nic.name = some nicNameFrontEnd <;> simp [h]

/-- C1: if exactly one interface in the list is named by the front-end
constant (as holds for any ordering of the created interfaces), then exactly
one built reference is flagged primary, the reference at position `i` is
primary exactly when the interface at position `i` is the front-end one, and
every non-primary reference carries an explicit `Primary = false`. -/
theorem buildNIRs_unique_primary (nics : List Interface)
    (h : nics.countP isFrontEnd = 1) :
    (buildNIRs nics).countP nirIsPrimary = 1 ∧
    (∀ i : Nat,
      ((buildNIRs nics).get? i).map nirIsPrimary = (nics.get? i).map isFrontEnd) ∧
    (∀ nir ∈ buildNIRs nics, nirIsPrimary nir = false →
      nir.properties = some { primary := some false }) := by
  refine ⟨?_, ?_, ?_⟩
  · rw [buildNIRs, List.countP_map, ← h]
    exact List.countP_congr
      (fun nic _ => by rw [Function.comp_apply, nirIsPrimary_buildNIR])
  · intro i
    simp only [buildNIRs, List.get?_eq_getElem?, List.getElem?_map]
    cases hg : nics[i]? with
    | none => rfl
    | some nic => simp [nirIsPrimary_buildNIR nic]
  · intro nir hmem hnp
    obtain ⟨nic, _, rfl⟩ := List.mem_map.mp hmem
    unfold buildNIR at hnp ⊢
    by_cases hn : nic.name = some nicNameFrontEnd
    · rw [if_pos hn] at hnp
      simp [nirIsPrimary] at hnp
    · rw [if_neg hn]

/-- Witness for C1: a permutation of the three created interfaces with the
front-end interface in the middle. -/
def wNics : List Interface :=
  [{ name := some nicNameBackEnd, id := some "id3", location := none,
     enableIPForwarding := none, macAddress := none, ipConfigurations := none },
   { name := some nicNameFrontEnd, id := some "id1", location := none,
     enableIPForwarding := none, macAddress := none, ipConfigurations := none },
   { name := some nicNameMidTier, id := some "id2", location := none,
     enableIPForwarding := none, macAddress := none, ipConfigurations := none }]

/-- C1 witness: the hypothesis and conclusion hold at a concrete
out-of-order interface list. -/
theorem buildNIRs_unique_primary_witness :
    wNics.countP isFrontEnd = 1 ∧
    ((buildNIRs wNics).countP nirIsPrimary = 1 ∧
     (∀ i : Nat,
       ((buildNIRs wNics).get? i).map nirIsPrimary = (wNics.get? i).map isFrontEnd) ∧
     (∀ nir ∈ buildNIRs wNics, nirIsPrimary nir = false →
       nir.properties = some { primary := some false })) :=
  ⟨by decide, buildNIRs_unique_primary wNics (by decide)⟩

/-! ## createNICs -/

/-- The three interface names of the sample, in creation order. -/
def nicNames : List String := [nicNameFrontEnd, nicNameMidTier, nicNameBackEnd]

/-- The `CreateOrUpdate` payload built at loop index `i` for interface name
`n`: the reused `nic` struct after the loop body mutated it.  `none` models
the panic on indexing `subnets[i]` out of range. -/
def nicPayload (subnets : List Subnet) (pip : PublicIPAddress) (i : Nat)
    (n : String) : Option Interface :=
  (subnets.get? i).map fun s =>
    { name := none, id := none, location := some westUS,
      enableIPForwarding := if n = nicNameFrontEnd then some true else none,
      macAddress := none,
      ipConfigurations := some
        [{ name := some ("IPconfig" ++ toString (i + 1)),
           subnet := some s,
           primary := if n = nicNameFrontEnd then some true else none,
           publicIPAddress := if n = nicNameFrontEnd then some pip else none,
           privateIPAddress := none,
           privateIPAllocationMethod := "Dynamic" }] }

/-- The `createNICs` loop over the indexed name list, collecting the
`CreateOrUpdate` payloads (name, payload) in order. -/
def createNICsLoop (subnets : List Subnet) (pip : PublicIPAddress) :
    List (Nat × String) → Option (List (String × Interface))
  | [] => some []
  | p :: rest =>
    (nicPayload subnets pip p.1 p.2).bind fun nic =>
      (createNICsLoop subnets pip rest).bind fun tail =>
        some ((p.2, nic) :: tail)

/-- All `CreateOrUpdate` payloads issued by `createNICs`. -/
def createNICsCalls (subnets : List Subnet) (pip : PublicIPAddress) :
    Option (List (String × Interface)) :=
  createNICsLoop subnets pip nicNames.enum

/-- The first IP configuration of an interface, when present. -/
def cfg0Of (nic : Interface) : Option IPConfiguration :=
  nic.ipConfigurations.bind fun cfgs => cfgs.get? 0

/-- Whether an interface payload has all three front-end settings:
IP forwarding enabled, primary first IP configuration, and the given
public IP attached. -/
def hasFrontSettings (pip : PublicIPAddress) (c : String × Interface) : Bool :=
  c.2.enableIPForwarding = some true &&
    match cfg0Of c.2 with
    | some cfg => cfg.primary = some true && cfg.publicIPAddress = some pip
    | none => false

/-- C3: whenever `createNICs` completes, exactly one of the three payloads
carries the front-end settings (IP forwarding enabled, primary IP
configuration, supplied public IP attached), namely the one created under
the front-end name; the other two have all three fields unset. -/
theorem createNICs_front_end_only (subnets : List Subnet)
    (pip : PublicIPAddress) (calls : List (String × Interface))
    (h : createNICsCalls subnets pip = some calls) :
    calls.countP (hasFrontSettings pip) = 1 ∧
    (∀ c ∈ calls,
      (c.1 = nicNameFrontEnd →
        c.2.enableIPForwarding = some true ∧
        ∃ cfg, cfg0Of c.2 = some cfg ∧ cfg.primary = some true ∧
          cfg.publicIPAddress = some pip) ∧
      (c.1 ≠ nicNameFrontEnd →
        c.2.enableIPForwarding = none ∧
        ∃ cfg, cfg0Of c.2 = some cfg ∧ cfg.primary = none ∧
          cfg.publicIPAddress = none)) := by
  match subnets with
  | [] => simp [createNICsCalls, createNICsLoop, nicNames, nicPayload] at h
  | [s0] => simp [createNICsCalls, createNICsLoop, nicNames, nicPayload] at h
  | [s0, s1] => simp [createNICsCalls, createNICsLoop, nicNames, nicPayload] at h
  | s0 :: s1 :: s2 :: rest =>
    simp only [createNICsCalls, createNICsLoop, nicNames, nicPayload,
      List.enum, List.get?_eq_getElem?, nicNameFrontEnd, nicNameMidTier,
      nicNameBackEnd] at h
    simp only [List.getElem?_cons_zero, List.getElem?_cons_succ,
      Option.map_some', Option.some_bind, Option.some.injEq] at h
    subst h
    constructor
    · simp [hasFrontSettings, cfg0Of, List.countP_cons, nicNameFrontEnd]
    · intro c hc
      simp only [List.mem_cons, List.not_mem_nil, or_false] at hc
      rcases hc with rfl | rfl | rfl <;>
        refine ⟨fun hfe => ?_, fun hne => ?_⟩ <;>
          simp_all [cfg0Of, nicNameFrontEnd, nicNameMidTier, nicNameBackEnd]

/-- Concrete subnets for the C3 witness. -/
def wSubnets : List Subnet :=
  [{ name := some "Front-end", id := some "s1", addressPrefix := none },
   { name := some "Mid-tier", id := some "s2", addressPrefix := none },
   { name := some "Back-end", id := some "s3", addressPrefix := none }]

/-- Concrete public IP for the C3 witness. -/
def wPip : PublicIPAddress := { name := some "pip1", dnsLabel := none }

/-- The payload list `createNICs` issues on the C3 witness inputs. -/
def wCalls : List (String × Interface) :=
  (createNICsCalls wSubnets wPip).iget

/-- C3 witness: three concrete subnets and a concrete public IP. -/
theorem createNICs_front_end_only_witness :
    createNICsCalls wSubnets wPip = some wCalls ∧
    wCalls.countP (hasFrontSettings wPip) = 1 :=
  ⟨by decide, (createNICs_front_end_only wSubnets wPip wCalls (by decide)).1⟩

/-! ## printNIC -/

/-- `printNIC`: each `fmt.Printf` line in order; every `*` dereference and
the `[0]` index become an `Option.bind`, so the result is `none` exactly
when the Go code panics. -/
def printNIC (nic : Interface) : Option (List String) :=
  nic.name.bind fun n =>
  nic.location.bind fun loc =>
  nic.enableIPForwarding.bind fun fwd =>
  nic.macAddress.bind fun mac =>
  nic.ipConfigurations.bind fun cfgs =>
  (cfgs.get? 0).bind fun cfg0 =>
  cfg0.privateIPAddress.bind fun priv =>
  cfg0.subnet.bind fun sub =>
  sub.id.bind fun sid =>
  some ["Network interface " ++ n,
        "Location: " ++ loc,
        "IP forwarding enabled: " ++ toString fwd,
        "MAC address: " ++ mac,
        "Private IP: " ++ priv,
        "Private allocation method: " ++ cfg0.privateIPAllocationMethod,
        "Primary virtual network ID: " ++ sid]

/-- C9: `printNIC` is well-defined (does not reach the panic branch) exactly
when the interface's name, location, IP-forwarding flag, MAC address, first
IP configuration, that configuration's private IP address, its subnet, and
the subnet's ID are all present; if any is absent the run is a panic
(`none`). -/
theorem printNIC_defined_iff (nic : Interface) :
    (printNIC nic).isSome ↔
      (nic.name.isSome ∧ nic.location.isSome ∧
       nic.enableIPForwarding.isSome ∧ nic.macAddress.isSome ∧
       ∃ cfg, cfg0Of nic = some cfg ∧ cfg.privateIPAddress.isSome ∧
         ∃ s, cfg.subnet = some s ∧ s.id.isSome) := by
  simp only [printNIC, cfg0Of, Option.isSome_iff_exists, Option.bind_eq_some]
  constructor
  · rintro ⟨out, n, hn, loc, hl, fwd, hf, mac, hm, cfgs, hc, cfg0, h0, priv,
      hp, sub, hs, sid, hi, -⟩
    exact ⟨⟨n, hn⟩, ⟨loc, hl⟩, ⟨fwd, hf⟩, ⟨mac, hm⟩, cfg0, ⟨cfgs, hc, h0⟩,
      ⟨priv, hp⟩, sub, hs, sid, hi⟩
  · rintro ⟨⟨n, hn⟩, ⟨loc, hl⟩, ⟨fwd, hf⟩, ⟨mac, hm⟩, cfg0, ⟨cfgs, hc, h0⟩,
      ⟨priv, hp⟩, sub, hs, sid, hi⟩
    exact ⟨_, n, hn, loc, hl, fwd, hf, mac, hm, cfgs, hc, cfg0, h0, priv, hp,
      sub, hs, sid, hi, rfl⟩

/-! ## updateNICwithPIP -/

/-- The linear scan of `updateNICwithPIP`:
`var index int; for i, nic := range nics { if *nic.Name == nicName { index = i } }`.
The accumulator starts at the zero value `0` and is overwritten by every
matching index; `none` models the panic on dereferencing a nil name. -/
def findNICIndexLoop (nicName : String) : List Interface → Nat → Nat → Option Nat
  | [], _, idx => some idx
  | nic :: rest, i, idx =>
    match nic.name with
    | none => none
    | some n =>
      findNICIndexLoop nicName rest (i + 1) (if n = nicName then i else idx)

/-- The index `updateNICwithPIP` selects for a given name. -/
def findNICIndex (nicName : String) (nics : List Interface) : Option Nat :=
  findNICIndexLoop nicName nics 0 0

/-- `updateNICwithPIP`: scan for the name, set the selected interface's
first IP configuration's public IP and primary flag, and return the
`CreateOrUpdate` payload (interface name, updated interface) that is
pushed.  `none` models the panics on nil dereferences and out-of-range
indexing. -/
def updateNICwithPIP (nicName : String) (nics : List Interface)
    (pip : PublicIPAddress) : Option (String × Interface) :=
  (findNICIndex nicName nics).bind fun idx =>
  pip.name.bind fun _ =>
  (nics.get? idx).bind fun nic =>
  nic.ipConfigurations.bind fun cfgs =>
  (cfgs.get? 0).bind fun cfg0 =>
  some (nicName,
    { nic with
        ipConfigurations := some (cfgs.set 0
          { cfg0 with publicIPAddress := some pip, primary := some true }) })

/-- If no element of the scanned list matches and every name is present,
the scan returns its accumulator unchanged. -/
theorem findNICIndexLoop_no_match (nicName : String) (nics : List Interface)
    (hnomatch : ∀ nic ∈ nics, nic.name.isSome ∧ nic.name ≠ some nicName) :
    ∀ i idx, findNICIndexLoop nicName nics i idx = some idx := by
  induction nics with
  | nil => intro i idx; rfl
  | cons nic rest ih =>
    intro i idx
    obtain ⟨hsome, hne⟩ := hnomatch nic (List.mem_cons_self nic rest)
    obtain ⟨n, hn⟩ := Option.isSome_iff_exists.mp hsome
    have hnn : n ≠ nicName := by
      intro hEq; exact hne (hEq ▸ hn)
    simp only [findNICIndexLoop, hn, if_neg hnn]
    exact ih (fun x hx => hnomatch x (List.mem_cons_of_mem nic hx)) (i + 1) idx

/-- C8: `updateNICwithPIP` scans linearly by name; on a non-empty list with
no matching name (all names present), the index silently stays at its zero
value `0`, so the pushed payload is the FIRST interface of the list with its
first IP configuration's public IP set and primary flag set, under the given
(unmatched) interface name. -/
theorem updateNICwithPIP_no_match_updates_first (nicName : String)
    (nics : List Interface) (pip : PublicIPAddress)
    (hne : nics ≠ [])
    (hnomatch : ∀ nic ∈ nics, nic.name.isSome ∧ nic.name ≠ some nicName) :
    findNICIndex nicName nics = some 0 ∧
    (∀ upd, updateNICwithPIP nicName nics pip = some upd →
      ∃ nic0 rest cfgs cfg0,
        nics = nic0 :: rest ∧
        nic0.ipConfigurations = some cfgs ∧
        cfgs.get? 0 = some cfg0 ∧
        upd = (nicName,
          { nic0 with
              ipConfigurations := some (cfgs.set 0
                { cfg0 with publicIPAddress := some pip,
                            primary := some true }) })) := by
  have hidx : findNICIndex nicName nics = some 0 :=
    findNICIndexLoop_no_match nicName nics hnomatch 0 0
  refine ⟨hidx, ?_⟩
  intro upd hupd
  match nics, hne with
  | nic0 :: rest, _ =>
    rw [updateNICwithPIP, hidx] at hupd
    simp only [Option.some_bind, Option.bind_eq_some, Option.some.injEq,
      List.get?_eq_getElem?, List.getElem?_cons_zero] at hupd
    obtain ⟨pn, hpn, cfgs, hcfgs, cfg0, h0, hupd⟩ := hupd
    exact ⟨nic0, rest, cfgs, cfg0, rfl, hcfgs, by simpa using h0, hupd.symm⟩

/-- Concrete interface list for the C8 witness: two interfaces, neither
named by the searched name. -/
def wNicsNoMatch : List Interface :=
  [{ name := some "nic2", id := some "idA", location := none,
     enableIPForwarding := none, macAddress := none,
     ipConfigurations := some
       [{ name := some "IPconfig1", subnet := none, primary := none,
          publicIPAddress := none, privateIPAddress := none,
          privateIPAllocationMethod := "Dynamic" }] },
   { name := some "nic3", id := some "idB", location := none,
     enableIPForwarding := none, macAddress := none,
     ipConfigurations := none }]

/-- C8 witness: both hypotheses hold at a concrete no-match list and the
conclusion follows by the theorem. -/
theorem updateNICwithPIP_no_match_witness :
    (wNicsNoMatch ≠ [] ∧
     ∀ nic ∈ wNicsNoMatch, nic.name.isSome ∧ nic.name ≠ some "nic9") ∧
    (findNICIndex "nic9" wNicsNoMatch = some 0 ∧
     (∀ upd,
        updateNICwithPIP "nic9" wNicsNoMatch
            { name := some "pip2", dnsLabel := none } = some upd →
        ∃ nic0 rest cfgs cfg0,
          wNicsNoMatch = nic0 :: rest ∧
          nic0.ipConfigurations = some cfgs ∧
          cfgs.get? 0 = some cfg0 ∧
          upd = ("nic9",
            { nic0 with
                ipConfigurations := some (cfgs.set 0
                  { cfg0 with
                      publicIPAddress :=
                        some { name := some "pip2", dnsLabel := none },
                      primary := some true }) }))) :=
  ⟨⟨by decide, by decide⟩,
   updateNICwithPIP_no_match_updates_first "nic9" wNicsNoMatch
     { name := some "pip2", dnsLabel := none } (by decide) (by decide)⟩

/-! ## Remote calls and the error-handling model

Remote calls are identified by operation and arguments.  An oracle
`errOf : Call → Option String` (or `fails : Call → Bool`) plays the remote
service: `some e` means the call returns error `e`. -/

/-- A remote management-API call, with its arguments. -/
inductive Call
  | groupCreate (group : String)
  | vnetCreate (group vnet : String)
  | subnetCreate (group vnet subnet : String)
  | subnetGet (group vnet subnet : String)
  | pipCreate (group pip : String)
  | pipGet (group pip : String)
  | nicCreate (group nic : String)
  | nicGet (group nic : String)
  | storageCreate (group account : String)
  | vmCreate (group vm : String)
  | nicList (group : String)
  | vmDelete (group vm : String)
  | nicDelete (group nic : String)
  | groupDelete (group : String)
deriving DecidableEq, Repr

/-- `a` occurs strictly before `b` in list `t`. -/
def listBefore {α : Type} (a b : α) (t : List α) : Prop :=
  ∃ i j, i < j ∧ t.get? i = some a ∧ t.get? j = some b

/-! ## deleteNIC -/

/-- `deleteNIC` of the sequential variant under an error oracle: issue the
VM delete; on error print-and-exit (trace stops); otherwise issue the
interface delete; on error exit.  Returns the calls issued and the exit
status (`none` = still running). -/
def deleteNICTrace (fails : Call → Bool) (nicName : String) :
    List Call × Option Nat :=
  let c1 := Call.vmDelete groupName vmName
  if fails c1 then ([c1], some 1)
  else
    let c2 := Call.nicDelete groupName nicName
    if fails c2 then ([c1, c2], some 1) else ([c1, c2], none)

/-- `deleteNIC` of the hardened variant: as above, but `onErrorFail`
additionally issues a best-effort resource-group deletion before exiting. -/
def deleteNICTraceHardened (fails : Call → Bool) (nicName : String) :
    List Call × Option Nat :=
  let c1 := Call.vmDelete groupName vmName
  if fails c1 then ([c1, Call.groupDelete groupName], some 1)
  else
    let c2 := Call.nicDelete groupName nicName
    if fails c2 then ([c1, c2, Call.groupDelete groupName], some 1)
    else ([c1, c2], none)

/-- C4: in every trace `deleteNIC` issues (under any error oracle, in either
variant), the interface-delete call for the given name is strictly preceded
by the VM-delete call; the interface delete is never issued first or without
a preceding VM delete. -/
theorem deleteNIC_vm_delete_first (fails : Call → Bool) (nicName : String) :
    (Call.nicDelete groupName nicName ∈ (deleteNICTrace fails nicName).1 →
      listBefore (Call.vmDelete groupName vmName)
        (Call.nicDelete groupName nicName) (deleteNICTrace fails nicName).1) ∧
    (Call.nicDelete groupName nicName ∈
        (deleteNICTraceHardened fails nicName).1 →
      listBefore (Call.vmDelete groupName vmName)
        (Call.nicDelete groupName nicName)
        (deleteNICTraceHardened fails nicName).1) := by
  constructor
  · intro hmem
    by_cases h1 : fails (Call.vmDelete groupName vmName)
    · simp [deleteNICTrace, h1] at hmem
    · by_cases h2 : fails (Call.nicDelete groupName nicName) <;>
        · simp only [deleteNICTrace, h1, h2, if_true, if_false,
            ite_true, ite_false]
          exact ⟨0, 1, Nat.zero_lt_one, rfl, rfl⟩
  · intro hmem
    by_cases h1 : fails (Call.vmDelete groupName vmName)
    · simp [deleteNICTraceHardened, h1] at hmem
    · by_cases h2 : fails (Call.nicDelete groupName nicName) <;>
        · simp only [deleteNICTraceHardened, h1, h2, if_true, if_false,
            ite_true, ite_false]
          exact ⟨0, 1, Nat.zero_lt_one, rfl, rfl⟩

/-- C4 witness: the error-free oracle and the mid-tier interface name. -/
theorem deleteNIC_vm_delete_first_witness :
    (Call.nicDelete groupName nicNameMidTier ∈
        (deleteNICTrace (fun _ => false) nicNameMidTier).1 ∧
      listBefore (Call.vmDelete groupName vmName)
        (Call.nicDelete groupName nicNameMidTier)
        (deleteNICTrace (fun _ => false) nicNameMidTier).1) ∧
    (Call.nicDelete groupName nicNameMidTier ∈
        (deleteNICTraceHardened (fun _ => false) nicNameMidTier).1 ∧
      listBefore (Call.vmDelete groupName vmName)
        (Call.nicDelete groupName nicNameMidTier)
        (deleteNICTraceHardened (fun _ => false) nicNameMidTier).1) :=
  ⟨⟨by decide,
    (deleteNIC_vm_delete_first (fun _ => false) nicNameMidTier).1 (by decide)⟩,
   ⟨by decide,
    (deleteNIC_vm_delete_first (fun _ => false) nicNameMidTier).2 (by decide)⟩⟩

/-! ## onErrorFail and the fail-fast run -/

/-- `onErrorFail` of the sequential variant: on an error, the failure
message (label and error) is printed and the process exits with status 1;
otherwise nothing happens. -/
def onErrorFailSeq (err : Option String) (message : String) :
    List String × Option Nat :=
  match err with
  | some e => ([message ++ ": " ++ e], some 1)
  | none => ([], none)

/-- `onErrorFail` of the hardened variant: additionally issues a single
best-effort resource-group deletion before exiting. -/
def onErrorFailHardened (err : Option String) (message : String) :
    List String × List Call × Option Nat :=
  match err with
  | some e => ([message ++ ": " ++ e], [Call.groupDelete groupName], some 1)
  | none => ([], [], none)

/-- Run a labelled call sequence under an error oracle with the sequential
variant's `onErrorFail` after every call.  Returns (calls issued, lines
printed by the error handler, exit status). -/
def runCallsSeq (errOf : Call → Option String) :
    List (Call × String) → List Call × List String × Option Nat
  | [] => ([], [], none)
  | p :: rest =>
    let res := onErrorFailSeq (errOf p.1) p.2
    match res.2 with
    | some code => ([p.1], res.1, some code)
    | none =>
      let r := runCallsSeq errOf rest
      (p.1 :: r.1, r.2.1, r.2.2)

/-- Run a labelled call sequence under an error oracle with the hardened
variant's `onErrorFail` after every call. -/
def runCallsHardened (errOf : Call → Option String) :
    List (Call × String) → List Call × List String × Option Nat
  | [] => ([], [], none)
  | p :: rest =>
    let res := onErrorFailHardened (errOf p.1) p.2
    match res.2.2 with
    | some code => (p.1 :: res.2.1, res.1, some code)
    | none =>
      let r := runCallsHardened errOf rest
      (p.1 :: r.1, r.2.1, r.2.2)

/-- C6: if a call errors, the run prints the caller-supplied label with the
error, exits with status 1, and issues no further remote calls: the issued
calls are exactly the error-free prefix plus the failing call — except that
the hardened variant appends a single resource-group deletion attempt. -/
theorem run_fail_fast (errOf : Call → Option String)
    (pre : List (Call × String)) (c : Call) (lbl : String)
    (rest : List (Call × String)) (e : String)
    (hpre : ∀ p ∈ pre, errOf p.1 = none) (hc : errOf c = some e) :
    runCallsSeq errOf (pre ++ (c, lbl) :: rest) =
      (pre.map Prod.fst ++ [c], [lbl ++ ": " ++ e], some 1) ∧
    runCallsHardened errOf (pre ++ (c, lbl) :: rest) =
      (pre.map Prod.fst ++ [c, Call.groupDelete groupName],
       [lbl ++ ": " ++ e], some 1) := by
  induction pre with
  | nil =>
    constructor
    · simp [runCallsSeq, onErrorFailSeq, hc]
    · simp [runCallsHardened, onErrorFailHardened, hc]
  | cons p pre ih =>
    have hp : errOf p.1 = none := hpre p (List.mem_cons_self p pre)
    have ih := ih (fun q hq => hpre q (List.mem_cons_of_mem p hq))
    constructor
    · rw [List.cons_append, runCallsSeq]
      simp only [hp, onErrorFailSeq]
      rw [ih.1]
      simp
    · rw [List.cons_append, runCallsHardened]
      simp only [hp, onErrorFailHardened]
      rw [ih.2]
      simp

/-- Error oracle for the C6 witness: only the VM creation call fails. -/
def wErrOf : Call → Option String := fun c =>
  if c = Call.vmCreate groupName vmName then some "boom" else none

/-- C6 witness: a concrete run in which the second call fails. -/
theorem run_fail_fast_witness :
    ((∀ p ∈ [(Call.groupCreate groupName, "CreateOrUpdate failed")],
        wErrOf p.1 = none) ∧
      wErrOf (Call.vmCreate groupName vmName) = some "boom") ∧
    (runCallsSeq wErrOf
        [(Call.groupCreate groupName, "CreateOrUpdate failed"),
         (Call.vmCreate groupName vmName, "CreateOrUpdate failed"),
         (Call.nicList groupName, "List failed")] =
      ([Call.groupCreate groupName, Call.vmCreate groupName vmName],
       ["CreateOrUpdate failed: boom"], some 1) ∧
     runCallsHardened wErrOf
        [(Call.groupCreate groupName, "CreateOrUpdate failed"),
         (Call.vmCreate groupName vmName, "CreateOrUpdate failed"),
         (Call.nicList groupName, "List failed")] =
      ([Call.groupCreate groupName, Call.vmCreate groupName vmName,
        Call.groupDelete groupName],
       ["CreateOrUpdate failed: boom"], some 1)) :=
  ⟨⟨by decide, by decide⟩,
   run_fail_fast wErrOf
     [(Call.groupCreate groupName, "CreateOrUpdate failed")]
     (Call.vmCreate groupName vmName) "CreateOrUpdate failed"
     [(Call.nicList groupName, "List failed")] "boom"
     (by decide) (by decide)⟩

/-! ## Environment variables and init -/

/-- `getEnvVarOrExit`: `os.Getenv` returns the empty string for an unset
variable; an empty value prints the missing-variable message and exits with
status 1. -/
def getEnvVarOrExit (env : String → String) (varName : String) :
    Except (String × Nat) String :=
  if env varName = "" then
    Except.error ("Missing environment variable " ++ varName, 1)
  else Except.ok (env varName)

/-- The four required environment variables, in the order `init` reads
them. -/
def requiredEnvVars : List String :=
  ["AZURE_SUBSCRIPTION_ID", "AZURE_TENANT_ID", "AZURE_CLIENT_ID",
   "AZURE_CLIENT_SECRET"]

/-- `init` of the sequential variant: read the four environment variables in
program order, stopping at the first missing one.  The OAuth-config and
service-principal-token constructions between the reads are local
computations that issue no remote call, so they are not part of the call
trace. -/
def initEnv (env : String → String) :
    Except (String × Nat) (String × String × String × String) :=
  match getEnvVarOrExit env "AZURE_SUBSCRIPTION_ID" with
  | Except.error err => Except.error err
  | Except.ok sub =>
    match getEnvVarOrExit env "AZURE_TENANT_ID" with
    | Except.error err => Except.error err
    | Except.ok ten =>
      match getEnvVarOrExit env "AZURE_CLIENT_ID" with
      | Except.error err => Except.error err
      | Except.ok cid =>
        match getEnvVarOrExit env "AZURE_CLIENT_SECRET" with
        | Except.error err => Except.error err
        | Except.ok sec => Except.ok (sub, ten, cid, sec)

/-- The labelled remote calls of the sequential variant's `main`, in program
order (the success-path sequence; under an error oracle the run stops at the
first failure). -/
def mainCallsSeq : List (Call × String) :=
  [(Call.groupCreate groupName, "CreateOrUpdate failed"),
   (Call.vnetCreate groupName vNetName, "CreateOrUpdate failed"),
   (Call.subnetCreate groupName vNetName "Front-end", "\tCreateOrUpdate failed"),
   (Call.subnetGet groupName vNetName "Front-end", "\tGet failed"),
   (Call.subnetCreate groupName vNetName "Mid-tier", "\tCreateOrUpdate failed"),
   (Call.subnetGet groupName vNetName "Mid-tier", "\tGet failed"),
   (Call.subnetCreate groupName vNetName "Back-end", "\tCreateOrUpdate failed"),
   (Call.subnetGet groupName vNetName "Back-end", "\tGet failed"),
   (Call.pipCreate groupName "pip1", "CreateOrUpdate failed"),
   (Call.pipGet groupName "pip1", "Get failed"),
   (Call.nicCreate groupName nicNameFrontEnd, "CreateOrUpdate failed"),
   (Call.nicGet groupName nicNameFrontEnd, "Get failed"),
   (Call.nicCreate groupName nicNameMidTier, "CreateOrUpdate failed"),
   (Call.nicGet groupName nicNameMidTier, "Get failed"),
   (Call.nicCreate groupName nicNameBackEnd, "CreateOrUpdate failed"),
   (Call.nicGet groupName nicNameBackEnd, "Get failed"),
   (Call.storageCreate groupName accountName, "Create failed"),
   (Call.vmCreate groupName vmName, "CreateOrUpdate failed"),
   (Call.pipCreate groupName "pip2", "CreateOrUpdate failed"),
   (Call.pipGet groupName "pip2", "Get failed"),
   (Call.nicCreate groupName nicNameFrontEnd, "CreateOrUpdate failed"),
   (Call.nicList groupName, "List failed"),
   (Call.vmDelete groupName vmName, "Delete failed"),
   (Call.nicDelete groupName nicNameMidTier, "Delete failed"),
   (Call.nicList groupName, "List failed"),
   (Call.groupDelete groupName, "Delete failed")]

/-- Whole-program run of the sequential variant: `init` runs first (reading
environment variables, issuing no remote call); only if it succeeds does
`main` issue its remote calls. -/
def programRun (env : String → String) (errOf : Call → Option String) :
    List Call × List String × Option Nat :=
  match initEnv env with
  | Except.error (msg, code) => ([], [msg], some code)
  | Except.ok _ => runCallsSeq errOf mainCallsSeq

/-- C7: if any required environment variable is absent, the program prints a
message naming a missing variable and exits with status 1 before issuing any
remote call (the call trace is empty). -/
theorem missing_env_var_exits_before_calls (env : String → String)
    (errOf : Call → Option String)
    (h : ∃ v ∈ requiredEnvVars, env v = "") :
    ∃ v ∈ requiredEnvVars, env v = "" ∧
      programRun env errOf =
        ([], ["Missing environment variable " ++ v], some 1) := by
  by_cases h1 : env "AZURE_SUBSCRIPTION_ID" = ""
  · exact ⟨"AZURE_SUBSCRIPTION_ID", by simp [requiredEnvVars], h1,
      by simp [programRun, initEnv, getEnvVarOrExit, h1]⟩
  · by_cases h2 : env "AZURE_TENANT_ID" = ""
    · exact ⟨"AZURE_TENANT_ID", by simp [requiredEnvVars], h2,
        by simp [programRun, initEnv, getEnvVarOrExit, h1, h2]⟩
    · by_cases h3 : env "AZURE_CLIENT_ID" = ""
      · exact ⟨"AZURE_CLIENT_ID", by simp [requiredEnvVars], h3,
          by simp [programRun, initEnv, getEnvVarOrExit, h1, h2, h3]⟩
      · by_cases h4 : env "AZURE_CLIENT_SECRET" = ""
        · exact ⟨"AZURE_CLIENT_SECRET", by simp [requiredEnvVars], h4,
            by simp [programRun, initEnv, getEnvVarOrExit, h1, h2, h3, h4]⟩
        · exfalso
          obtain ⟨v, hv, hempty⟩ := h
          simp only [requiredEnvVars, List.mem_cons, List.not_mem_nil,
            or_false] at hv
          rcases hv with rfl | rfl | rfl | rfl
          · exact h1 hempty
          · exact h2 hempty
          · exact h3 hempty
          · exact h4 hempty

/-- C7 witness: the fully empty environment. -/
theorem missing_env_var_exits_before_calls_witness :
    (∃ v ∈ requiredEnvVars, (fun _ => "") v = "") ∧
    (∃ v ∈ requiredEnvVars, (fun _ => "") v = "" ∧
      programRun (fun _ => "") (fun _ => none) =
        ([], ["Missing environment variable " ++ v], some 1)) :=
  ⟨⟨"AZURE_SUBSCRIPTION_ID", by simp [requiredEnvVars]⟩,
   missing_env_var_exits_before_calls (fun _ => "") (fun _ => none)
     ⟨"AZURE_SUBSCRIPTION_ID", by simp [requiredEnvVars]⟩⟩

/-! ## The concurrent variant's main flow

The concurrent variant spawns `go createStorageAccount(&wg)` after
`wg.Add(1)` and joins with `wg.Wait()` immediately before `createVM`.  The
two threads are modelled as lists of pending steps and an interleaving
step relation; the wait-group counter blocks the main thread's `wgWait`
step until the auxiliary thread's `wgDone` has run.  The model lets the
auxiliary thread run from the very start (in the program it is spawned
after the resource-group creation), which only adds interleavings and so is
sound for the ordering property. -/

/-- One high-level step of the flow (one helper-function call). -/
inductive Evt
  | vnetCreate
  | subnetsCreate
  | pip1Create
  | nicsCreate
  | nirsBuild
  | storageCreate
  | vmCreate
  | pip2Create
  | nicUpdate
  | nicsList1
  | nicDeleteStep
  | nicsList2
  | groupDeleteStep
deriving DecidableEq, Repr

/-- A step of the main thread: run an event, or block on `wg.Wait()`. -/
inductive MainStep
  | evt (e : Evt)
  | wgWait
deriving DecidableEq, Repr

/-- A step of the auxiliary goroutine: run an event, or `wg.Done()`. -/
inductive AuxStep
  | evt (e : Evt)
  | wgDone
deriving DecidableEq, Repr

/-- The main thread's pending steps, from the concurrent variant's `main`:
the `wg.Wait()` barrier sits immediately before `createVM`. -/
def mainProg : List MainStep :=
  [MainStep.evt Evt.vnetCreate, MainStep.evt Evt.subnetsCreate,
   MainStep.evt Evt.pip1Create, MainStep.evt Evt.nicsCreate,
   MainStep.evt Evt.nirsBuild, MainStep.wgWait,
   MainStep.evt Evt.vmCreate, MainStep.evt Evt.pip2Create,
   MainStep.evt Evt.nicUpdate, MainStep.evt Evt.nicsList1,
   MainStep.evt Evt.nicDeleteStep, MainStep.evt Evt.nicsList2,
   MainStep.evt Evt.groupDeleteStep]

/-- The auxiliary goroutine `createStorageAccount(&wg)`: create the storage
account, then `wg.Done()`. -/
def auxProg : List AuxStep :=
  [AuxStep.evt Evt.storageCreate, AuxStep.wgDone]

/-- An interleaving state: the two threads' remaining steps, the wait-group
counter, and the trace of events executed so far. -/
structure Sched where
  mainRest : List MainStep
  auxRest : List AuxStep
  count : Nat
  trace : List Evt
deriving DecidableEq, Repr

/-- The initial state: both threads pending, wait-group counter 1 (from
`wg.Add(1)`), empty trace. -/
def initSched : Sched := ⟨mainProg, auxProg, 1, []⟩

/-- One interleaving step: either thread runs its next pending step; the
main thread's `wgWait` can only run when the counter has reached 0;
`wgDone` decrements the counter. -/
inductive SchedStep : Sched → Sched → Prop
  | mainEvt (e : Evt) (m : List MainStep) (a : List AuxStep) (c : Nat)
      (t : List Evt) :
      SchedStep ⟨MainStep.evt e :: m, a, c, t⟩ ⟨m, a, c, t ++ [e]⟩
  | mainWait (m : List MainStep) (a : List AuxStep) (t : List Evt) :
      SchedStep ⟨MainStep.wgWait :: m, a, 0, t⟩ ⟨m, a, 0, t⟩
  | auxEvt (e : Evt) (m : List MainStep) (a : List AuxStep) (c : Nat)
      (t : List Evt) :
      SchedStep ⟨m, AuxStep.evt e :: a, c, t⟩ ⟨m, a, c, t ++ [e]⟩
  | auxDone (m : List MainStep) (a : List AuxStep) (c : Nat) (t : List Evt) :
      SchedStep ⟨m, AuxStep.wgDone :: a, c, t⟩ ⟨m, a, c - 1, t⟩

/-- States reachable from the initial state by interleaving. -/
def Reachable (s : Sched) : Prop :=
  Relation.ReflTransGen SchedStep initSched s

/-- The inductive invariant of the interleaving system. -/
def SchedInv (s : Sched) : Prop :=
  (s.count = 0 → s.auxRest = []) ∧
  (s.auxRest = [AuxStep.wgDone] ∨ s.auxRest = [] →
    Evt.storageCreate ∈ s.trace) ∧
  (s.auxRest = auxProg ∨ s.auxRest = [AuxStep.wgDone] ∨ s.auxRest = []) ∧
  (MainStep.wgWait ∉ s.mainRest → Evt.storageCreate ∈ s.trace) ∧
  (s.mainRest <:+ mainProg) ∧
  (Evt.vmCreate ∈ s.trace →
    listBefore Evt.storageCreate Evt.vmCreate s.trace)

/-- `listBefore` is stable under extending the list on the right. -/
theorem listBefore_append {α : Type} (a b : α) (t u : List α)
    (h : listBefore a b t) : listBefore a b (t ++ u) := by
  obtain ⟨i, j, hij, ha, hb⟩ := h
  have hj : j < t.length := (List.get?_eq_some.mp hb).1
  have hi : i < t.length := (List.get?_eq_some.mp ha).1
  refine ⟨i, j, hij, ?_, ?_⟩
  · rw [List.get?_eq_getElem?, List.getElem?_append_left hi,
      ← List.get?_eq_getElem?]
    exact ha
  · rw [List.get?_eq_getElem?, List.getElem?_append_left hj,
      ← List.get?_eq_getElem?]
    exact hb

/-- If `a` is already in the list, appending `b` puts `b` after `a`. -/
theorem listBefore_concat {α : Type} (a b : α) (t : List α) (h : a ∈ t) :
    listBefore a b (t ++ [b]) := by
  obtain ⟨i, hi⟩ := List.get?_of_mem h
  have hlen : i < t.length := (List.get?_eq_some.mp hi).1
  refine ⟨i, t.length, hlen, ?_, ?_⟩
  · rw [List.get?_eq_getElem?, List.getElem?_append_left hlen,
      ← List.get?_eq_getElem?]
    exact hi
  · rw [List.get?_eq_getElem?, List.getElem?_concat_length]

/-- In `mainProg`, any suffix beginning with the VM-creation step is past
the wait barrier. -/
theorem mainProg_vm_past_wait :
    ∀ l ∈ mainProg.tails, l.head? = some (MainStep.evt Evt.vmCreate) →
      MainStep.wgWait ∉ l := by decide

/-- The invariant holds initially. -/
theorem schedInv_init : SchedInv initSched := by
  refine ⟨?_, ?_, ?_, ?_, ?_, ?_⟩
  · intro h; exact absurd h (by decide)
  · intro h; rcases h with h | h <;> exact absurd h (by decide)
  · exact Or.inl rfl
  · intro h; exact absurd (by decide : MainStep.wgWait ∈ mainProg) h
  · exact List.suffix_refl mainProg
  · intro h; exact absurd h (by decide)

/-- The invariant is preserved by every interleaving step. -/
theorem schedInv_step (s s' : Sched) (hinv : SchedInv s)
    (hstep : SchedStep s s') : SchedInv s' := by
  obtain ⟨h1, h2, h3, h4, h5, h6⟩ := hinv
  cases hstep with
  | mainEvt e m a c t =>
    refine ⟨h1, fun h => List.mem_append_left _ (h2 h), h3, ?_, ?_, ?_⟩
    · intro hnw
      have : MainStep.wgWait ∉ MainStep.evt e :: m := by
        intro hmem
        rcases List.mem_cons.mp hmem with h | h
        · exact absurd h.symm (by simp)
        · exact hnw h
      exact List.mem_append_left _ (h4 this)
    · exact (List.suffix_cons (MainStep.evt e) m).trans h5
    · intro hvm
      rcases List.mem_append.mp hvm with hvm | hvm
      · exact listBefore_append _ _ _ _ (h6 hvm)
      · have he : e = Evt.vmCreate := by
          have := hvm
          simp at this
          exact this.symm
        subst he
        have hnw : MainStep.wgWait ∉ MainStep.evt Evt.vmCreate :: m :=
          mainProg_vm_past_wait _ ((List.mem_tails _ _).mpr h5) rfl
        exact listBefore_concat _ _ _ (h4 hnw)
  | mainWait m a t =>
    have haux : a = [] := h1 rfl
    refine ⟨h1, h2, h3, ?_, ?_, h6⟩
    · intro _
      exact h2 (Or.inr haux)
    · exact (List.suffix_cons MainStep.wgWait m).trans h5
  | auxEvt e m a c t =>
    have hshape : e = Evt.storageCreate ∧ a = [AuxStep.wgDone] := by
      rcases h3 with h | h | h
      · rw [auxProg] at h
        exact ⟨by injection h with he _; injection he, by injection h⟩
      · exfalso; injection h with he _; exact absurd he (by simp)
      · exact absurd h (by simp)
    obtain ⟨rfl, rfl⟩ := hshape
    refine ⟨?_, ?_, Or.inr (Or.inl rfl), ?_, h5, ?_⟩
    · intro hc
      exact absurd (h1 hc) (by simp)
    · intro _
      exact List.mem_append_right _ (by simp)
    · intro hnw
      exact List.mem_append_left _ (h4 hnw)
    · intro hvm
      rcases List.mem_append.mp hvm with hvm | hvm
      · exact listBefore_append _ _ _ _ (h6 hvm)
      · simp at hvm
  | auxDone m a c t =>
    have haux : a = [] := by
      rcases h3 with h | h | h
      · exfalso
        rw [auxProg] at h
        injection h with he _
        exact absurd he (by simp)
      · injection h
      · exact absurd h (by simp)
    subst haux
    exact ⟨fun _ => rfl, fun _ => h2 (Or.inl rfl),
      Or.inr (Or.inr rfl), h4, h5, h6⟩

/-- Every reachable state satisfies the invariant. -/
theorem reachable_schedInv (s : Sched) (h : Reachable s) : SchedInv s := by
  induction h with
  | refl => exact schedInv_init
  | tail _ hstep ih => exact schedInv_step _ _ ih hstep

/-- C5: in every reachable state of the concurrent main flow, if the
VM-creation call has been issued then the storage-account creation occurred
strictly before it in the trace: the join barrier makes VM creation wait
for storage-account completion. -/
theorem vm_create_after_storage_create (s : Sched) (hs : Reachable s)
    (hvm : Evt.vmCreate ∈ s.trace) :
    listBefore Evt.storageCreate Evt.vmCreate s.trace :=
  (reachable_schedInv s hs).2.2.2.2.2 hvm

/-- A concrete final-ish state for the C5 witness: the auxiliary thread ran
to completion first, then the main thread passed the barrier and created
the VM. -/
def wSched : Sched :=
  ⟨[MainStep.evt Evt.pip2Create, MainStep.evt Evt.nicUpdate,
    MainStep.evt Evt.nicsList1, MainStep.evt Evt.nicDeleteStep,
    MainStep.evt Evt.nicsList2, MainStep.evt Evt.groupDeleteStep],
   [], 0,
   [Evt.storageCreate, Evt.vnetCreate, Evt.subnetsCreate, Evt.pip1Create,
    Evt.nicsCreate, Evt.nirsBuild, Evt.vmCreate]⟩

/-- The witness state is reachable by an explicit interleaving. -/
theorem wSched_reachable : Reachable wSched := by
  have s0 : Reachable initSched := Relation.ReflTransGen.refl
  have s1 : Reachable ⟨mainProg, [AuxStep.wgDone], 1, [Evt.storageCreate]⟩ :=
    s0.tail (SchedStep.auxEvt _ _ _ _ _)
  have s2 : Reachable ⟨mainProg, [], 0, [Evt.storageCreate]⟩ :=
    s1.tail (SchedStep.auxDone _ _ _ _)
  have s3 : Reachable ⟨mainProg.drop 1, [], 0,
      [Evt.storageCreate, Evt.vnetCreate]⟩ :=
    s2.tail (SchedStep.mainEvt _ _ _ _ _)
  have s4 : Reachable ⟨mainProg.drop 2, [], 0,
      [Evt.storageCreate, Evt.vnetCreate, Evt.subnetsCreate]⟩ :=
    s3.tail (SchedStep.mainEvt _ _ _ _ _)
  have s5 : Reachable ⟨mainProg.drop 3, [], 0,
      [Evt.storageCreate, Evt.vnetCreate, Evt.subnetsCreate,
       Evt.pip1Create]⟩ :=
    s4.tail (SchedStep.mainEvt _ _ _ _ _)
  have s6 : Reachable ⟨mainProg.drop 4, [], 0,
      [Evt.storageCreate, Evt.vnetCreate, Evt.subnetsCreate,
       Evt.pip1Create, Evt.nicsCreate]⟩ :=
    s5.tail (SchedStep.mainEvt _ _ _ _ _)
  have s7 : Reachable ⟨mainProg.drop 5, [], 0,
      [Evt.storageCreate, Evt.vnetCreate, Evt.subnetsCreate,
       Evt.pip1Create, Evt.nicsCreate, Evt.nirsBuild]⟩ :=
    s6.tail (SchedStep.mainEvt _ _ _ _ _)
  have s8 : Reachable ⟨mainProg.drop 6, [], 0,
      [Evt.storageCreate, Evt.vnetCreate, Evt.subnetsCreate,
       Evt.pip1Create, Evt.nicsCreate, Evt.nirsBuild]⟩ :=
    s7.tail (SchedStep.mainWait _ _ _)
  exact s8.tail (SchedStep.mainEvt _ _ _ _ _)

/-- C5 witness: the concrete reachable state has the VM creation in its
trace, and storage-account creation precedes it. -/
theorem vm_create_after_storage_create_witness :
    Reachable wSched ∧ Evt.vmCreate ∈ wSched.trace ∧
    listBefore Evt.storageCreate Evt.vmCreate wSched.trace :=
  ⟨wSched_reachable, by decide,
   vm_create_after_storage_create wSched wSched_reachable (by decide)⟩

end AzNet
